import Mathlib

/-!
Shallow embedding of the replication core of `feathers-offline-owndata`
(src/commons/base-engine.js, src/commons/base-replicator.js,
src/commons/owndata-mutator.js) together with theorems settling the
frozen claims about it.

Modelling conventions:
* Timestamps (`updatedAt`, `syncedAt`) are ISO-8601 strings in the source,
  compared with the JS `>` operator, i.e. lexicographically; on that fixed
  format lexicographic order coincides with chronological order, so they
  are modelled as `Nat` (the epoch constant DOB, the string
  `2020-05-26T00:00:00.001Z`, becomes `0`).
* A JS record is an object with optional `id`, `_id`, `uuid`, `updatedAt`
  keys plus domain fields; the domain payload is represented by the single
  optional field `order` (the field the package's tests and examples use).
  A missing key is `none`.
* Asynchronous remote calls are modelled by oracles (`QueuedEntry → Bool`
  for queue replay success, an explicit fetched list for the snapshot);
  each engine operation returns its new state together with the list of
  event descriptors it emitted (the source emits each descriptor once on
  the `events` topic and once to the subscriber callback).
-/

namespace Owndata

/-- Timestamps; see the module comment. `DOB` is the epoch the store's
`syncedAt` is initialised to. -/
abbrev Timestamp := Nat

def DOB : Timestamp := 0

/-- A record: optional server ids `id` / `_id`, optional client id `uuid`,
optional `updatedAt` stamp and the domain payload `order`. -/
structure Record where
  id : Option Nat := none
  _id : Option Nat := none
  uuid : Option String := none
  updatedAt : Option Timestamp := none
  order : Option Int := none
deriving Repr, DecidableEq

instance : Inhabited Record := ⟨{}⟩

/-- JS `Object.assign({}, old, new)`: keys of `new` override keys of `old`;
a key is present exactly when the field is `some`. -/
def mergeRecord (old new : Record) : Record :=
  { id := new.id <|> old.id
    _id := new._id <|> old._id
    uuid := new.uuid <|> old.uuid
    updatedAt := new.updatedAt <|> old.updatedAt
    order := new.order <|> old.order }

/-- Reads `record[idName]` where `idName` is `'id'` when `useId` is true and
`'_id'` otherwise — the source computes `idName = 'id' in record ? 'id' : '_id'`
from the record driving the lookup. -/
def idOf (r : Record) (useId : Bool) : Option Nat :=
  if useId then r.id else r._id

/-- Descriptor stored in `store.last` and delivered with every emission:
`{ source, action, eventName, record }`.  Listener-lifecycle emissions carry
only `action`. -/
structure Last where
  source : Option Nat := none
  action : String := ""
  eventName : Option String := none
  record : Option Record := none
deriving Repr, DecidableEq

/-- Query object carried inside call params.  Only the `_fail` / `_timeout`
test flags are interpreted (processQueuedEvents deletes them); the rest of
the query is opaque. -/
structure Query where
  fail : Option Bool := none
  timeout : Option Bool := none
  rest : String := ""
deriving Repr, DecidableEq

/-- Call params: optional query object and an optional `$select` list. -/
structure Params where
  query : Option Query := none
  select : Option (List String) := none
deriving Repr, DecidableEq

/-- One positional argument of a queued remote call: an id, a record, or a
params object. -/
inductive Arg where
  | idArg : Option Nat → Arg
  | recordArg : Record → Arg
  | paramsArg : Params → Arg
deriving Repr, DecidableEq

/-- A queued mutation `{ eventName, record, args }`.  `record` is `Option`
because `_create` enqueues the result of `_mutateStore`, which is
`undefined` when a configured publication rejects the new record. -/
structure QueuedEntry where
  eventName : String
  record : Option Record
  args : List Arg
deriving Repr, DecidableEq

instance : Inhabited QueuedEntry := ⟨⟨"", none, []⟩⟩

/-- processQueuedEvents runs `delete el.args[i].query._fail` and
`delete el.args[i].query._timeout` on every arg that has a query. -/
def scrubArg : Arg → Arg
  | .paramsArg p => .paramsArg { p with query := p.query.map (fun q => { q with fail := none, timeout := none }) }
  | a => a

def scrubEntry (e : QueuedEntry) : QueuedEntry :=
  { e with args := e.args.map scrubArg }

/-- Engine state: the fields the BaseEngine constructor initialises.  The
configuration read from `options` (`publication`, `sort`, `uuid`,
`updatedAt`) lives here as well since `changeSort` mutates the sorter. -/
structure Engine where
  syncedAt : Timestamp := DOB
  last : Last := { action := "", eventName := some "", record := some {} }
  records : List Record := []
  queued : List QueuedEntry := []
  listening : Bool := false
  publication : Option (Record → Bool) := none
  sorter : Option (Record → Record → Int) := none
  useUuid : Bool := false
  useUpdatedAt : Bool := false

/-- Engine's `_findIndex`: first index satisfying the predicate (the source
returns `-1` for no match, modelled as `none`). -/
def findIndex : List α → (α → Bool) → Option Nat
  | [], _ => none
  | x :: xs, p => if p x then some 0 else (findIndex xs p).map (· + 1)

/-- Engine's `_findIndexReversed`: the source scans from the last element
down to the first, so it returns the greatest matching index. -/
def findIndexReversed : List α → (α → Bool) → Option Nat
  | [], _ => none
  | x :: xs, p =>
    match findIndexReversed xs p with
    | some i => some (i + 1)
    | none => if p x then some 0 else none

/-- JS `array.sort(comparator)` with a numeric comparator: modelled as a
merge sort by `comparator a b ≤ 0`. -/
def jsSort (c : Record → Record → Int) (l : List Record) : List Record :=
  l.mergeSort (fun a b => decide (c a b ≤ 0))

/-- Latest `updatedAt` over a snapshot, falling back to the epoch:
`let updatedAt = DOB; records.forEach(rec => updatedAt = (rec.updatedAt > updatedAt) ? rec.updatedAt : updatedAt)`.
A record without `updatedAt` never wins the comparison (in JS both
`undefined > x` and `x > undefined` are false). -/
def computeSyncedAt (records : List Record) : Timestamp :=
  records.foldl (fun acc rec =>
    match rec.updatedAt with
    | some t => if acc < t then t else acc
    | none => acc) DOB

/-- Engine.snapshot: store `last = { action: 'snapshot' }`, replace the
records, recompute `syncedAt`, sort when a sorter is configured, emit. -/
def snapshot (e : Engine) (records : List Record) : Engine × List Last :=
  let l : Last := { action := "snapshot" }
  let sa := computeSyncedAt records
  let recs := match e.sorter with
    | some c => jsSort c records
    | none => records
  ({ e with last := l, records := recs, syncedAt := sa }, [l])

/-- Publication test used in the `removed` branch of `_mutateStore`:
`!this._publication || this._publication(remoteRecord)`. -/
def pubPasses (e : Engine) (r : Record) : Bool :=
  match e.publication with
  | none => true
  | some p => p r

/-- Publication test used in the non-`removed` branch:
`this._publication && !this._publication(remoteRecord)`. -/
def pubRejects (e : Engine) (r : Record) : Bool :=
  match e.publication with
  | none => false
  | some p => !(p r)

/-- Engine's `_mutateStore(eventName, remoteRecord, source)`.  `now` stands
for the wall clock value `new Date()` written into `updatedAt` on append.
Returns the new engine state, the list of emitted descriptors (zero or
one), and the function's return value (`beforeRecord`, the appended
record, or `undefined`). -/
def mutateStore (e : Engine) (eventName : String) (remoteRecord : Record)
    (source : Nat) (now : Timestamp) : Engine × List Last × Option Record :=
  let useId := remoteRecord.id.isSome
  let idxOpt := findIndex e.records (fun rec => idOf rec useId == idOf remoteRecord useId)
  let beforeRecord : Option Record :=
    match idxOpt with
    | some i => e.records[i]?
    | none => none
  let records1 :=
    match idxOpt with
    | some i => e.records.eraseIdx i
    | none => e.records
  if eventName == "removed" then
    -- two broadcast sites in the source: `index >= 0`, else
    -- `source === 0 && (!publication || publication(remoteRecord))`
    if idxOpt.isSome || (source == 0 && pubPasses e remoteRecord) then
      let l : Last := { source := some source, action := "remove",
                        eventName := some eventName, record := some remoteRecord }
      ({ e with records := records1, last := l }, [l], beforeRecord)
    else
      ({ e with records := records1 }, [], beforeRecord)
  else
    if pubRejects e remoteRecord then
      -- `return index >= 0 ? broadcast('left-pub') : undefined`
      if idxOpt.isSome then
        let l : Last := { source := some source, action := "left-pub",
                          eventName := some eventName, record := some remoteRecord }
        ({ e with records := records1, last := l }, [l], none)
      else
        ({ e with records := records1 }, [], none)
    else
      -- `remoteRecord.updatedAt = new Date()` happens after the publication
      -- check, so the stored and broadcast record carries the fresh stamp
      let stamped := { remoteRecord with updatedAt := some now }
      let records2 := records1 ++ [stamped]
      let records3 :=
        match e.sorter with
        | some c => jsSort c records2
        | none => records2
      let l : Last := { source := some source, action := "mutated",
                        eventName := some eventName, record := some stamped }
      ({ e with records := records3, last := l }, [l], some stamped)

/-- Engine's `_addQueuedEvent`: push `{ eventName, record, args }`. -/
def addQueuedEvent (e : Engine) (eventName : String) (record : Option Record)
    (args : List Arg) : Engine :=
  { e with queued := e.queued ++ [⟨eventName, record, args⟩] }

/-- Queue-entry match used by `_addQueuedNetEvent`, `_removeQueuedEvent`
and `_removeQueuedNetEvent`: `qElement.record[idName] === localRecord[idName]`.
An entry whose `record` is missing would make the source throw a TypeError
while matching; such entries (possible only via a publication-rejected
create) are modelled as never matching. -/
def entryIdMatches (q : QueuedEntry) (useId : Bool) (localRecord : Record) : Bool :=
  match q.record with
  | some rec => idOf rec useId == idOf localRecord useId
  | none => false

inductive Err where
  | badRequest : String → Err
  | notFound : String → Err
deriving Repr, DecidableEq

/-- Engine's `_addQueuedNetEvent`: coalesce onto the most recent queued
entry with the same server id.  The source guards the remove case with
`this.store.queued[index].event !== 'remove'`, but queue entries are
created with the key `eventName` — there is no `event` key, the read
yields `undefined`, and `undefined !== 'remove'` always holds.  That is
modelled by `entryEvent := none` below; the else branch is therefore dead
code, kept as the source has it. -/
def addQueuedNetEvent (e : Engine) (eventName : String) (localRecord : Record)
    (args : List Arg) : Except Err Engine :=
  if e.queued.isEmpty then
    .ok (addQueuedEvent e eventName (some localRecord) args)
  else
    let useId := localRecord.id.isSome
    match findIndexReversed e.queued (fun q => entryIdMatches q useId localRecord) with
    | some i =>
      let entryEvent : Option String := none
      if entryEvent != some "remove" then
        let old := e.queued.getD i default
        let merged : QueuedEntry :=
          { eventName := eventName
            record := some (mergeRecord (old.record.getD {}) localRecord)
            args := args }
        .ok { e with queued := e.queued.set i merged }
      else
        if eventName != "create" then
          .error (.badRequest "Impossible queue event (remove followed by eventName)")
        else
          .ok { e with queued := e.queued.insertIdx (i + 1) ⟨eventName, some localRecord, args⟩ }
    | none => .ok (addQueuedEvent e eventName (some localRecord) args)

/-- Engine's `_removeQueuedEvent(eventName, localRecord, updatedAt)`.
The source computes
`idName = this._useUuid ? 'uuid' : ('id' in localRecord ? 'id' : '_id')`;
no code ever assigns `_useUuid` (the constructor sets `useUuid`), so the
read yields `undefined` and the id branch is always taken.  The trailing
`if (updatedAt)` skips a null / undefined argument, modelled as `none`
(the confirmation call sites pass either a server timestamp or null). -/
def removeQueuedEvent (e : Engine) (eventName : String) (localRecord : Record)
    (updatedAt : Option Timestamp) : Engine :=
  let useId := localRecord.id.isSome
  let e1 :=
    match findIndexReversed e.queued
        (fun q => entryIdMatches q useId localRecord && q.eventName == eventName) with
    | some i => { e with queued := e.queued.eraseIdx i }
    | none => e
  match updatedAt with
  | some t => { e1 with syncedAt := t }
  | none => e1

/-- Engine's `_removeQueuedNetEvent`: remove up to two most recent entries
for the record's server id (covering a remove followed by a create), then
advance `syncedAt` when a timestamp was supplied. -/
def removeQueuedNetEvent (e : Engine) (localRecord : Record)
    (updatedAt : Option Timestamp) : Engine :=
  let e1 :=
    if e.queued.isEmpty then e
    else
      let useId := localRecord.id.isSome
      let p := fun q => entryIdMatches q useId localRecord
      let e' :=
        match findIndexReversed e.queued p with
        | some i => { e with queued := e.queued.eraseIdx i }
        | none => e
      match findIndexReversed e'.queued p with
      | some i => { e' with queued := e'.queued.eraseIdx i }
      | none => e'
  match updatedAt with
  | some t => { e1 with syncedAt := t }
  | none => e1

/-- Engine's addListeners: subscribe the four remote topics (external
effect), set the flag, emit `{ action: 'add-listeners' }` (this emission
does not overwrite `store.last`). -/
def addListeners (e : Engine) : Engine × List Last :=
  ({ e with listening := true }, [{ action := "add-listeners" }])

/-- Engine's removeListeners: everything is guarded by `if (this.listening)`. -/
def removeListeners (e : Engine) : Engine × List Last :=
  if e.listening then
    ({ e with listening := false }, [{ action := "remove-listeners" }])
  else
    (e, [])

/-- Engine's changeSort: install the sorter, re-sort when one was given,
emit `{ action: 'change-sort' }` (again without touching `store.last`). -/
def changeSort (e : Engine) (c : Option (Record → Record → Int)) : Engine × List Last :=
  let e1 := { e with sorter := c }
  let e2 :=
    match c with
    | some cf => { e1 with records := jsSort cf e1.records }
    | none => e1
  (e2, [{ action := "change-sort" }])

/-- Engine's processQueuedEvents, with the remote service modelled as a
success oracle on the (scrubbed) entry.  Shift the head, strip the
`_fail` / `_timeout` test flags from its args, invoke the service; on
failure unshift the (scrubbed, as the source mutates it in place) entry
and stop.  Returns the trace of entries handed to the service and the
final queue. -/
def processQueuedEvents (svc : QueuedEntry → Bool) : List QueuedEntry → List QueuedEntry × List QueuedEntry
  | [] => ([], [])
  | en :: rest =>
    let en' := scrubEntry en
    if svc en' then
      let (tr, fin) := processQueuedEvents svc rest
      (en' :: tr, fin)
    else
      ([en'], en' :: rest)

/-- Replicator.connect, from the point where the snapshot query has
resolved: `fetched` is the full remote result set.  Detach listeners,
filter through the publication when configured, hand to Engine.snapshot,
replay the queue, reattach listeners.  The source's sort step reads
`this.engine.sorter`, a property that does not exist (the engine field is
`_sorter`), so it never runs.  The replicator's `_publication` is the same
`options.publication` the engine holds. -/
def connect (e : Engine) (fetched : List Record) (svc : QueuedEntry → Bool) : Engine × List Last :=
  let rl := removeListeners e
  let filtered :=
    match rl.1.publication with
    | some p => fetched.filter p
    | none => fetched
  let sn := snapshot rl.1 filtered
  let e3 := { sn.1 with queued := (processQueuedEvents svc sn.1.queued).2 }
  let al := addListeners e3
  (al.1, rl.2 ++ sn.2 ++ al.2)

/-- Mutator helper `findIdIndex(array, id)`: first index whose record has
`id == id` or `_id == id` (JS loose equality on numeric ids coincides with
equality here; a missing key never equals a number). -/
def findIdIndex (records : List Record) (i : Nat) : Option Nat :=
  findIndex records (fun rec => rec.id == some i || rec._id == some i)

/-- Mutator helper `findUuidIndex(array, uuid)`: first index whose record
has `uuid == uuid`. -/
def findUuidIndex (records : List Record) (u : Option String) : Option Nat :=
  findIndex records (fun rec => rec.uuid == u)

/-- Projection of `@feathersjs/adapter-commons`'s `select(params, ...others)`:
with no `$select` in the params it is the identity, otherwise it keeps
exactly the fields listed in `$select` plus `others`. -/
def selectProj (fields : Option (List String)) (r : Record) : Record :=
  match fields with
  | none => r
  | some fs =>
    { id := if "id" ∈ fs then r.id else none
      _id := if "_id" ∈ fs then r._id else none
      uuid := if "uuid" ∈ fs then r.uuid else none
      updatedAt := if "updatedAt" ∈ fs then r.updatedAt else none
      order := if "order" ∈ fs then r.order else none }

/-- The mutator's `select(params, ...this._alwaysSelect)` with
`_alwaysSelect = ['id', '_id', 'uuid']`. -/
def selectAlways (params : Params) (r : Record) : Record :=
  match params.select with
  | none => r
  | some fs => selectProj (some (fs ++ ["id", "_id", "uuid"])) r

/-- Find parameters after `filterQuery` has split the query: the pluggable
matcher (`sift` over the non-filter part of the query, out of scope per
the spec), the `$sort` comparator produced by `options.sorter`, `$skip`,
`$limit`, and `paginate.default`. -/
structure FindParams where
  matcher : Record → Bool
  sortWith : Option (Record → Record → Int) := none
  skip : Option Nat := none
  limit : Option Nat := none
  paginateDefault : Bool := false
  select : Option (List String) := none

inductive FindResult where
  | bare : List Record → FindResult
  | page : Nat → Option Nat → Nat → List Record → FindResult
deriving Repr, DecidableEq

namespace Mutator

/-- Mutator `_find(params)`: filter a fresh array of the records by the
matcher, `$sort` / `$skip` / `$limit` it, map `_select` (a JSON clone plus
`$select` projection) over it, and wrap the result in a paginated envelope
when `paginate.default` is set. -/
def find (e : Engine) (p : FindParams) : Engine × FindResult :=
  let values := e.records.filter p.matcher
  let total := values.length
  let sorted :=
    match p.sortWith with
    | some c => jsSort c values
    | none => values
  let skipped :=
    match p.skip with
    | some s => sorted.drop s
    | none => sorted
  let limited :=
    match p.limit with
    | some l => skipped.take l
    | none => skipped
  let dataOut := limited.map (selectProj p.select)
  if p.paginateDefault then
    (e, .page total p.limit (p.skip.getD 0) dataOut)
  else
    (e, .bare dataOut)

/-- Mutator `_get(uuid, params)`: lookup by uuid, NotFound when absent.
The source message interpolates the uuid; messages are kept literal here. -/
def get (e : Engine) (u : String) (params : Params) : Engine × Except Err Record :=
  match findUuidIndex e.records (some u) with
  | none => (e, .error (.notFound "No record found for uuid"))
  | some i => (e, .ok (selectAlways params (e.records.getD i default)))

/-- Replicator.connected is `engine.listening`; `_checkConnected` throws
BadRequest when it is false. -/
def connectedMsg : String := "Replicator not connected to remote. (owndata)"

/-- Mutator `_create(data, params)` for non-array data, up to the point
where the optimistic result is returned (the remote call and its
confirmation run asynchronously afterwards and are not part of this
synchronous step).  `mint` is the value `this._getUuid()` would mint —
UUID generation is an external collaborator per the spec — and `now` the
wall clock used by the optimistic apply. -/
def create (e : Engine) (data : Record) (params : Params) (mint : String)
    (now : Timestamp) : Engine × Except Err (Option Record) :=
  if !e.listening then
    (e, .error (.badRequest connectedMsg))
  else
    let data := match data.uuid with
      | none => { data with uuid := some mint }
      | some _ => data
    match findUuidIndex e.records data.uuid with
    | some _ => (e, .error (.badRequest "Optimistic create requires unique uuid. (owndata)"))
    | none =>
      let ms := mutateStore e "created" data 1 now
      -- `_addQueuedEvent('create', newData, shallowClone(newData), params)`;
      -- `shallowClone(undefined)` is the empty object
      let e2 := addQueuedEvent ms.1 "create" ms.2.2
        [.recordArg (ms.2.2.getD {}), .paramsArg params]
      (e2, .ok (ms.2.2.map (selectAlways params)))

/-- JS `getId(record)`: `'id' in record ? record.id : record._id`. -/
def getId (r : Record) : Option Nat :=
  if r.id.isSome then r.id else r._id

/-- Mutator `_update(id, data, params)` (synchronous part, as for create). -/
def update (e : Engine) (i : Nat) (data : Record) (params : Params)
    (now : Timestamp) : Engine × Except Err (Option Record) :=
  if !e.listening then
    (e, .error (.badRequest connectedMsg))
  else if data.uuid.isNone then
    (e, .error (.badRequest "Optimistic mutation requires uuid. (owndata)"))
  else
    match findIdIndex e.records i with
    | none => (e, .error (.notFound "No record found for id"))
    | some idx =>
      let beforeRecord := e.records.getD idx default
      let data := { data with uuid := beforeRecord.uuid }
      let ms := mutateStore e "updated" data 1 now
      let e2 := addQueuedEvent ms.1 "update" ms.2.2
        [.idArg (getId (ms.2.2.getD {})), .recordArg (ms.2.2.getD {}), .paramsArg params]
      (e2, .ok (ms.2.2.map (selectAlways params)))

/-- Mutator `_patch(id, data, params)` with a non-null id (the null id
fans out over `_find` and is outside the claims). -/
def patch (e : Engine) (i : Nat) (data : Record) (params : Params)
    (now : Timestamp) : Engine × Except Err (Option Record) :=
  if !e.listening then
    (e, .error (.badRequest connectedMsg))
  else
    match findIdIndex e.records i with
    | none => (e, .error (.notFound "No record found for id"))
    | some idx =>
      let beforeRecord := e.records.getD idx default
      let afterRecord := mergeRecord beforeRecord data
      let ms := mutateStore e "patched" afterRecord 1 now
      let e2 := addQueuedEvent ms.1 "patch" ms.2.2
        [.idArg (getId (ms.2.2.getD {})), .recordArg (ms.2.2.getD {}), .paramsArg params]
      (e2, .ok (ms.2.2.map (selectAlways params)))

/-- Mutator `_remove(id, params)` with a non-null id. -/
def remove (e : Engine) (i : Nat) (params : Params)
    (now : Timestamp) : Engine × Except Err (Option Record) :=
  if !e.listening then
    (e, .error (.badRequest connectedMsg))
  else
    match findIdIndex e.records i with
    | none => (e, .error (.notFound "No record found for id"))
    | some idx =>
      let beforeRecord := e.records.getD idx default
      let ms := mutateStore e "removed" beforeRecord 1 now
      let e2 := addQueuedEvent ms.1 "remove" (some beforeRecord)
        [.idArg (some i), .paramsArg params]
      (e2, .ok (ms.2.2.map (selectAlways params)))

end Mutator

/-- One externally triggered engine operation, for stating properties of
arbitrary operation sequences.  `processQueuedOp` carries the remote
success oracle; `mutateOp` carries the wall clock value of the apply. -/
inductive EngineOp where
  | snapshotOp : List Record → EngineOp
  | mutateOp : String → Record → Nat → Timestamp → EngineOp
  | addQueuedOp : String → Option Record → List Arg → EngineOp
  | addQueuedNetOp : String → Record → List Arg → EngineOp
  | removeQueuedOp : String → Record → Option Timestamp → EngineOp
  | removeQueuedNetOp : Record → Option Timestamp → EngineOp
  | addListenersOp : EngineOp
  | removeListenersOp : EngineOp
  | changeSortOp : Option (Record → Record → Int) → EngineOp
  | processQueuedOp : (QueuedEntry → Bool) → EngineOp

/-- State transition of one operation.  A BadRequest from
`_addQueuedNetEvent` is thrown before any store mutation, so the state is
unchanged on error. -/
def applyOp (e : Engine) : EngineOp → Engine
  | .snapshotOp rs => (snapshot e rs).1
  | .mutateOp ev r s n => (mutateStore e ev r s n).1
  | .addQueuedOp ev r a => addQueuedEvent e ev r a
  | .addQueuedNetOp ev r a =>
    match addQueuedNetEvent e ev r a with
    | .ok e' => e'
    | .error _ => e
  | .removeQueuedOp ev r u => removeQueuedEvent e ev r u
  | .removeQueuedNetOp r u => removeQueuedNetEvent e r u
  | .addListenersOp => (addListeners e).1
  | .removeListenersOp => (removeListeners e).1
  | .changeSortOp c => (changeSort e c).1
  | .processQueuedOp svc => { e with queued := (processQueuedEvents svc e.queued).2 }

def applyOps (e : Engine) (ops : List EngineOp) : Engine :=
  ops.foldl applyOp e

/-- Condition under which one operation cannot lower `syncedAt`: a
snapshot's input must reach at least the current watermark, and a
confirmation timestamp handed to the queue-removal operations must not lie
behind it. -/
def stampOk (e : Engine) : Option Timestamp → Prop
  | some t => e.syncedAt ≤ t
  | none => True

instance (e : Engine) (u : Option Timestamp) : Decidable (stampOk e u) := by
  cases u <;> simp only [stampOk] <;> infer_instance

def OpOk (e : Engine) : EngineOp → Prop
  | .snapshotOp rs => e.syncedAt ≤ computeSyncedAt rs
  | .removeQueuedOp _ _ u => stampOk e u
  | .removeQueuedNetOp _ u => stampOk e u
  | _ => True

def OpsOk : Engine → List EngineOp → Prop
  | _, [] => True
  | e, op :: ops => OpOk e op ∧ OpsOk (applyOp e op) ops

instance (e : Engine) (op : EngineOp) : Decidable (OpOk e op) := by
  cases op <;> simp only [OpOk] <;> infer_instance

instance (e : Engine) (ops : List EngineOp) : Decidable (OpsOk e ops) := by
  induction ops generalizing e with
  | nil => simp only [OpsOk]; infer_instance
  | cons op ops ih =>
    simp only [OpsOk]
    have := ih (applyOp e op)
    infer_instance

/-! Helper lemmas about the engine's index searches and the sort. -/

theorem findIndex_nil (p : α → Bool) : findIndex [] p = none := rfl

theorem findIndex_cons_pos {p : α → Bool} {x : α} (xs : List α) (hp : p x = true) :
    findIndex (x :: xs) p = some 0 := by
  simp [findIndex, hp]

theorem findIndex_cons_neg {p : α → Bool} {x : α} (xs : List α) (hp : p x = false) :
    findIndex (x :: xs) p = (findIndex xs p).map (· + 1) := by
  simp [findIndex, hp]

theorem findIndex_eq_none_iff (l : List α) (p : α → Bool) :
    findIndex l p = none ↔ ∀ x ∈ l, p x = false := by
  induction l with
  | nil => simp [findIndex]
  | cons x xs ih =>
    cases hp : p x with
    | true =>
      rw [findIndex_cons_pos xs hp]
      simp only [List.mem_cons]
      constructor
      · intro h; cases h
      · intro h
        have := h x (Or.inl rfl)
        rw [hp] at this
        cases this
    | false =>
      rw [findIndex_cons_neg xs hp]
      simp [hp, ih]

theorem findIndex_some_spec (l : List α) (p : α → Bool) (i : Nat)
    (h : findIndex l p = some i) :
    ∃ hlt : i < l.length, p (l.get ⟨i, hlt⟩) = true ∧
      ∀ j (hj : j < l.length), j < i → p (l.get ⟨j, hj⟩) = false := by
  induction l generalizing i with
  | nil => cases h
  | cons x xs ih =>
    cases hp : p x with
    | true =>
      rw [findIndex_cons_pos xs hp] at h
      cases h
      exact ⟨Nat.succ_pos _, by simpa using hp, fun j hj hji => by omega⟩
    | false =>
      rw [findIndex_cons_neg xs hp] at h
      rw [Option.map_eq_some'] at h
      obtain ⟨a, ha, rfl⟩ := h
      obtain ⟨hlt, hpa, hmin⟩ := ih a ha
      refine ⟨Nat.succ_lt_succ hlt, by simpa using hpa, ?_⟩
      intro j hj hji
      match j, hj, hji with
      | 0, _, _ => simpa using hp
      | j + 1, hj, hji =>
        exact hmin j (Nat.lt_of_succ_lt_succ hj) (Nat.lt_of_succ_lt_succ hji)

theorem findIndex_isSome_iff (l : List α) (p : α → Bool) :
    (findIndex l p).isSome = l.any p := by
  induction l with
  | nil => simp [findIndex]
  | cons x xs ih =>
    cases hp : p x with
    | true => rw [findIndex_cons_pos xs hp]; simp [hp]
    | false => rw [findIndex_cons_neg xs hp]; simp [hp, ← ih]

theorem findIndexReversed_nil (p : α → Bool) : findIndexReversed [] p = none := rfl

theorem findIndexReversed_cons_some {p : α → Bool} {x : α} {xs : List α} {a : Nat}
    (hr : findIndexReversed xs p = some a) :
    findIndexReversed (x :: xs) p = some (a + 1) := by
  simp [findIndexReversed, hr]

theorem findIndexReversed_cons_none {p : α → Bool} {x : α} {xs : List α}
    (hr : findIndexReversed xs p = none) :
    findIndexReversed (x :: xs) p = (if p x then some 0 else none) := by
  simp [findIndexReversed, hr]

theorem findIndexReversed_eq_none_iff (l : List α) (p : α → Bool) :
    findIndexReversed l p = none ↔ ∀ x ∈ l, p x = false := by
  induction l with
  | nil => simp [findIndexReversed]
  | cons x xs ih =>
    cases hr : findIndexReversed xs p with
    | some a =>
      rw [findIndexReversed_cons_some hr]
      simp only [List.mem_cons]
      constructor
      · intro h; cases h
      · intro h
        have : ∀ y ∈ xs, p y = false := fun y hy => h y (Or.inr hy)
        rw [ih.mpr this] at hr
        cases hr
    | none =>
      rw [findIndexReversed_cons_none hr]
      cases hp : p x with
      | true =>
        simp only [if_true, List.mem_cons]
        constructor
        · intro h; cases h
        · intro h
          have := h x (Or.inl rfl)
          rw [hp] at this
          cases this
      | false =>
        have hxs := ih.mp hr
        simp only [List.mem_cons]
        constructor
        · intro _ y hy
          rcases hy with hy | hy
          · subst hy; exact hp
          · exact hxs y hy
        · intro _
          simp

theorem findIndexReversed_some_spec (l : List α) (p : α → Bool) (i : Nat)
    (h : findIndexReversed l p = some i) :
    ∃ hlt : i < l.length, p (l.get ⟨i, hlt⟩) = true ∧
      ∀ j (hj : j < l.length), i < j → p (l.get ⟨j, hj⟩) = false := by
  induction l generalizing i with
  | nil => cases h
  | cons x xs ih =>
    cases hr : findIndexReversed xs p with
    | some a =>
      rw [findIndexReversed_cons_some hr] at h
      cases h
      obtain ⟨hlt, hpa, hmax⟩ := ih a hr
      refine ⟨Nat.succ_lt_succ hlt, by simpa using hpa, ?_⟩
      intro j hj hji
      match j, hj, hji with
      | j + 1, hj, hji =>
        exact hmax j (Nat.lt_of_succ_lt_succ hj) (Nat.lt_of_succ_lt_succ hji)
    | none =>
      rw [findIndexReversed_cons_none hr] at h
      cases hp : p x with
      | true =>
        simp [hp] at h
        subst h
        refine ⟨Nat.succ_pos _, by simpa using hp, ?_⟩
        intro j hj hji
        match j, hj, hji with
        | j + 1, hj, _ =>
          have hjl : j < xs.length := Nat.lt_of_succ_lt_succ hj
          have := (findIndexReversed_eq_none_iff xs p).mp hr (xs.get ⟨j, hjl⟩)
            (List.get_mem xs j hjl)
          simpa using this
      | false =>
        simp [hp] at h

theorem mem_jsSort {c : Record → Record → Int} {l : List Record} {a : Record} :
    a ∈ jsSort c l ↔ a ∈ l :=
  (List.mergeSort_perm l _).mem_iff

theorem mem_of_mem_eraseIdx {l : List α} {i : Nat} {a : α}
    (h : a ∈ l.eraseIdx i) : a ∈ l :=
  (List.eraseIdx_sublist l i).mem h

/-- None of the branches of `_mutateStore` writes `syncedAt`. -/
theorem mutateStore_syncedAt (e : Engine) (ev : String) (r : Record) (s : Nat) (n : Timestamp) :
    (mutateStore e ev r s n).1.syncedAt = e.syncedAt := by
  unfold mutateStore
  dsimp only
  repeat' split
  all_goals rfl

theorem addQueuedNetEvent_syncedAt (e : Engine) (ev : String) (r : Record) (a : List Arg)
    (e' : Engine) (h : addQueuedNetEvent e ev r a = .ok e') :
    e'.syncedAt = e.syncedAt := by
  revert h
  simp only [addQueuedNetEvent]
  split
  · intro h
    cases h
    rfl
  · cases hf : findIndexReversed e.queued fun q => entryIdMatches q r.id.isSome r with
    | some i =>
      intro h
      cases h
      rfl
    | none =>
      intro h
      cases h
      rfl

theorem removeQueuedEvent_syncedAt_some (e : Engine) (ev : String) (r : Record) (t : Timestamp) :
    (removeQueuedEvent e ev r (some t)).syncedAt = t := rfl

theorem removeQueuedEvent_syncedAt_none (e : Engine) (ev : String) (r : Record) :
    (removeQueuedEvent e ev r none).syncedAt = e.syncedAt := by
  unfold removeQueuedEvent
  dsimp only
  split
  all_goals rfl

theorem removeQueuedNetEvent_syncedAt_some (e : Engine) (r : Record) (t : Timestamp) :
    (removeQueuedNetEvent e r (some t)).syncedAt = t := rfl

theorem removeQueuedNetEvent_syncedAt_none (e : Engine) (r : Record) :
    (removeQueuedNetEvent e r none).syncedAt = e.syncedAt := by
  unfold removeQueuedNetEvent
  dsimp only
  repeat' split
  all_goals rfl

theorem applyOp_syncedAt_mono (e : Engine) (op : EngineOp) (h : OpOk e op) :
    e.syncedAt ≤ (applyOp e op).syncedAt := by
  cases op with
  | snapshotOp rs =>
    simpa [applyOp, snapshot] using h
  | mutateOp ev r s n =>
    rw [applyOp, mutateStore_syncedAt]
  | addQueuedOp ev r a => exact le_of_eq rfl
  | addQueuedNetOp ev r a =>
    simp only [applyOp]
    cases hr : addQueuedNetEvent e ev r a with
    | ok e' => exact le_of_eq (addQueuedNetEvent_syncedAt e ev r a e' hr).symm
    | error _ => exact le_refl _
  | removeQueuedOp ev r u =>
    simp only [OpOk] at h
    cases u with
    | some t =>
      rw [applyOp, removeQueuedEvent_syncedAt_some]
      simpa [stampOk] using h
    | none =>
      rw [applyOp, removeQueuedEvent_syncedAt_none]
  | removeQueuedNetOp r u =>
    simp only [OpOk] at h
    cases u with
    | some t =>
      rw [applyOp, removeQueuedNetEvent_syncedAt_some]
      simpa [stampOk] using h
    | none =>
      rw [applyOp, removeQueuedNetEvent_syncedAt_none]
  | addListenersOp => exact le_of_eq rfl
  | removeListenersOp =>
    simp only [applyOp, removeListeners]
    split
    all_goals exact le_refl _
  | changeSortOp c =>
    simp only [applyOp, changeSort]
    split
    all_goals exact le_refl _
  | processQueuedOp svc => exact le_refl _

/-! Claim theorems. -/

/-- C9: `find` never mutates the store: the engine state after the call,
in particular `records` and `queued`, is exactly the state before it, and
nothing is enqueued. -/
theorem find_readonly (e : Engine) (p : FindParams) :
    (Mutator.find e p).1 = e ∧
    (Mutator.find e p).1.records = e.records ∧
    (Mutator.find e p).1.queued = e.queued := by
  have h : (Mutator.find e p).1 = e := by
    unfold Mutator.find
    dsimp only
    repeat' split
    all_goals rfl
  exact ⟨h, by rw [h], by rw [h]⟩

/-- C10: `removeListeners` on an engine that is not listening is a complete
no-op: the state (flag, records, queued, syncedAt, last) is returned
unchanged and nothing is emitted to the events topic or the subscriber. -/
theorem removeListeners_noop (e : Engine) (h : e.listening = false) :
    removeListeners e = (e, []) := by
  simp [removeListeners, h]

/-- Witness for C10 at the freshly constructed engine. -/
theorem removeListeners_noop_witness :
    removeListeners {} = (({} : Engine), []) :=
  removeListeners_noop {} rfl

/-- C2, evaluated at the failing input: the queue holds a `remove` entry
for the record with id 1; a follow-up `update` for the same record must,
per the claim, fail with BadRequest — instead `_addQueuedNetEvent`
coalesces in place (the guard reads the nonexistent `event` key of the
entry, so the `remove` is never recognised) and the `remove` entry is
overwritten by the `update`. -/
theorem addQueuedNetEvent_after_remove_overwrites :
    addQueuedNetEvent
        { queued := [⟨"remove", some { id := some 1, uuid := some "u1" }, []⟩] }
        "update" { id := some 1, uuid := some "u1", order := some 9 } []
      = .ok { queued := [⟨"update",
          some { id := some 1, uuid := some "u1", order := some 9 }, []⟩] } := by
  rfl

/-- C3 counterexample: after a snapshot carrying a record stamped at time 5
the watermark is 5; a following snapshot with an empty record list resets
it to the epoch — `syncedAt` strictly decreases, refuting the claim that
it never does. -/
theorem snapshot_lowers_syncedAt :
    ¬ ((applyOp ({} : Engine) (.snapshotOp [{ id := some 1, updatedAt := some 5 }])).syncedAt ≤
        (applyOp (applyOp ({} : Engine) (.snapshotOp [{ id := some 1, updatedAt := some 5 }]))
          (.snapshotOp [])).syncedAt) := by
  decide

/-- C3 amended: `snapshot` recomputes `syncedAt` as the maximum `updatedAt`
over its input (epoch fallback) and the queue-removal operations overwrite
it with any supplied confirmation stamp, so `syncedAt` is monotonically
non-decreasing over a sequence of engine operations exactly under the side
condition `OpsOk`: every snapshot input reaches the current watermark and
every supplied confirmation stamp is at least the current watermark. -/
theorem syncedAt_monotone_of_opsOk (e : Engine) (ops : List EngineOp) (h : OpsOk e ops) :
    e.syncedAt ≤ (applyOps e ops).syncedAt := by
  induction ops generalizing e with
  | nil => exact le_refl _
  | cons op ops ih =>
    obtain ⟨h1, h2⟩ := h
    calc e.syncedAt ≤ (applyOp e op).syncedAt := applyOp_syncedAt_mono _ _ h1
      _ ≤ (applyOps (applyOp e op) ops).syncedAt := ih _ h2

theorem processQueuedEvents_all_ok (svc : QueuedEntry → Bool) (q : List QueuedEntry)
    (h : ∀ x ∈ q, svc (scrubEntry x) = true) :
    processQueuedEvents svc q = (q.map scrubEntry, []) := by
  induction q with
  | nil => rfl
  | cons x xs ih =>
    have hx := h x (List.mem_cons_self x xs)
    have ihx := ih (fun y hy => h y (List.mem_cons_of_mem x hy))
    simp [processQueuedEvents, hx, ihx]

theorem processQueuedEvents_first_fail (svc : QueuedEntry → Bool)
    (pre : List QueuedEntry) (en : QueuedEntry) (post : List QueuedEntry)
    (hpre : ∀ x ∈ pre, svc (scrubEntry x) = true) (hen : svc (scrubEntry en) = false) :
    processQueuedEvents svc (pre ++ en :: post) =
      (pre.map scrubEntry ++ [scrubEntry en], scrubEntry en :: post) := by
  induction pre with
  | nil => simp [processQueuedEvents, hen]
  | cons x xs ih =>
    have hx := hpre x (List.mem_cons_self x xs)
    have ihx := ih (fun y hy => hpre y (List.mem_cons_of_mem x hy))
    simp [processQueuedEvents, hx, ihx]

/-- C4: `processQueuedEvents` invokes the remote service strictly
head-to-tail (the trace of invoked entries witnesses it): when every
invocation succeeds, the queue ends empty and the whole queue was replayed
in order; when the first failure happens at some entry, that entry is
pushed back onto the head, nothing after it is attempted, and the final
queue is the failing entry followed by the remaining entries in their
original order.  Each invoked (and re-queued) entry is the original entry
with the `_fail` / `_timeout` test flags stripped from its args — the
source deletes them in place before the call. -/
theorem processQueuedEvents_spec (svc : QueuedEntry → Bool) (queue : List QueuedEntry) :
    ((∀ x ∈ queue, svc (scrubEntry x) = true) →
      (processQueuedEvents svc queue).1 = queue.map scrubEntry ∧
      (processQueuedEvents svc queue).2 = []) ∧
    (∀ pre en post, queue = pre ++ en :: post →
      (∀ x ∈ pre, svc (scrubEntry x) = true) →
      svc (scrubEntry en) = false →
      (processQueuedEvents svc queue).1 = pre.map scrubEntry ++ [scrubEntry en] ∧
      (processQueuedEvents svc queue).2 = scrubEntry en :: post) := by
  constructor
  · intro h
    rw [processQueuedEvents_all_ok svc queue h]
    exact ⟨rfl, rfl⟩
  · intro pre en post hq hpre hen
    subst hq
    rw [processQueuedEvents_first_fail svc pre en post hpre hen]
    exact ⟨rfl, rfl⟩

/-- Witness for C4: a remote that accepts `create` calls and rejects the
queued `remove` replays the head, stops at the failure, leaves the failing
entry back at the head and never attempts the tail. -/
theorem processQueuedEvents_spec_witness :
    (processQueuedEvents (fun q => q.eventName == "create")
        [⟨"create", some { id := some 1 }, []⟩,
         ⟨"remove", some { id := some 2 }, []⟩,
         ⟨"create", some { id := some 3 }, []⟩]).1
      = [⟨"create", some { id := some 1 }, []⟩, ⟨"remove", some { id := some 2 }, []⟩] ∧
    (processQueuedEvents (fun q => q.eventName == "create")
        [⟨"create", some { id := some 1 }, []⟩,
         ⟨"remove", some { id := some 2 }, []⟩,
         ⟨"create", some { id := some 3 }, []⟩]).2
      = [⟨"remove", some { id := some 2 }, []⟩, ⟨"create", some { id := some 3 }, []⟩] := by
  have h := (processQueuedEvents_spec (fun q => q.eventName == "create")
      [⟨"create", some { id := some 1 }, []⟩,
       ⟨"remove", some { id := some 2 }, []⟩,
       ⟨"create", some { id := some 3 }, []⟩]).2
    [⟨"create", some { id := some 1 }, []⟩]
    ⟨"remove", some { id := some 2 }, []⟩
    [⟨"create", some { id := some 3 }, []⟩]
    rfl (by decide) (by decide)
  exact ⟨by rw [h.1]; decide, by rw [h.2]; decide⟩

/-- Witness for the amended C3 on a concrete operation sequence. -/
theorem syncedAt_monotone_of_opsOk_witness :
    ({} : Engine).syncedAt ≤
      (applyOps {} [.snapshotOp [{ id := some 1, updatedAt := some 5 }],
        .removeQueuedOp "create" { id := some 1 } (some 9),
        .addListenersOp]).syncedAt :=
  syncedAt_monotone_of_opsOk _ _ (by decide)

/-- C1: `mutateStore` with event `removed` erases the first record whose
server id (the `id` key when the incoming record carries one, else `_id`)
equals the incoming record's; it emits exactly one event with action
`remove` precisely when the record was present, or the event is
remote-origin (source 0) and passes the configured publication (or none is
configured); and it returns the prior form of the removed record (`none`
when nothing was removed). -/
theorem mutateStore_removed_spec (e : Engine) (r : Record) (source : Nat) (now : Timestamp)
    (_hid : r.id.isSome ∨ r._id.isSome) :
    ((mutateStore e "removed" r source now).2.1 =
      if (e.records.any fun rec => idOf rec r.id.isSome == idOf r r.id.isSome) ||
          (source == 0 && pubPasses e r) then
        [{ source := some source, action := "remove", eventName := some "removed",
           record := some r }]
      else []) ∧
    ((∀ rec ∈ e.records, (idOf rec r.id.isSome == idOf r r.id.isSome) = false) →
      (mutateStore e "removed" r source now).1.records = e.records ∧
      (mutateStore e "removed" r source now).2.2 = none) ∧
    (∀ i, (findIndex e.records fun rec => idOf rec r.id.isSome == idOf r r.id.isSome) = some i →
      ∃ hlt : i < e.records.length,
        (idOf (e.records.get ⟨i, hlt⟩) r.id.isSome == idOf r r.id.isSome) = true ∧
        (mutateStore e "removed" r source now).1.records = e.records.eraseIdx i ∧
        (mutateStore e "removed" r source now).2.2 =
          some (e.records.get ⟨i, hlt⟩)) := by
  have hany : (e.records.any fun rec => idOf rec r.id.isSome == idOf r r.id.isSome)
      = (findIndex e.records fun rec => idOf rec r.id.isSome == idOf r r.id.isSome).isSome :=
    (findIndex_isSome_iff _ _).symm
  refine ⟨?_, ?_, ?_⟩
  · rw [hany]
    cases hidx : findIndex e.records fun rec => idOf rec r.id.isSome == idOf r r.id.isSome with
    | none =>
      cases hc : (source == 0 && pubPasses e r) with
      | true => simp [mutateStore, hidx, hc]
      | false => simp [mutateStore, hidx, hc]
    | some i => simp [mutateStore, hidx]
  · intro hnone
    have hidx : (findIndex e.records fun rec => idOf rec r.id.isSome == idOf r r.id.isSome)
        = none := (findIndex_eq_none_iff _ _).mpr hnone
    cases hc : (source == 0 && pubPasses e r) with
    | true => exact ⟨by simp [mutateStore, hidx, hc], by simp [mutateStore, hidx, hc]⟩
    | false => exact ⟨by simp [mutateStore, hidx, hc], by simp [mutateStore, hidx, hc]⟩
  · intro i hidx
    obtain ⟨hlt, hp, -⟩ := findIndex_some_spec _ _ _ hidx
    refine ⟨hlt, hp, by simp [mutateStore, hidx], ?_⟩
    simp [mutateStore, hidx, List.getElem?_eq_getElem hlt]

/-- Witness for C1: removing `{id: 1}` from a one-record store empties it,
returns the prior record and emits one `remove` event. -/
theorem mutateStore_removed_spec_witness :
    (mutateStore { records := [{ id := some 1, order := some 5 }] } "removed"
        { id := some 1 } 0 7).1.records = [] ∧
    (mutateStore { records := [{ id := some 1, order := some 5 }] } "removed"
        { id := some 1 } 0 7).2.2 = some { id := some 1, order := some 5 } ∧
    (mutateStore { records := [{ id := some 1, order := some 5 }] } "removed"
        { id := some 1 } 0 7).2.1 =
      [{ source := some 0, action := "remove", eventName := some "removed",
         record := some { id := some 1 } }] := by
  have h := mutateStore_removed_spec { records := [{ id := some 1, order := some 5 }] }
    { id := some 1 } 0 7 (Or.inl rfl)
  obtain ⟨hlt, -, hrec, hret⟩ := h.2.2 0 (by decide)
  refine ⟨by rw [hrec]; decide, by rw [hret]; rfl, ?_⟩
  rw [h.1]
  decide

/-- C6 counterexample: the only queued entry's record has uuid `100`; the
confirmation call carries a record with uuid `999` (but the same server id
1).  Per the claim the queue must be left unchanged (no entry has the
record's uuid) — yet the entry is removed: `_removeQueuedEvent` matches by
server id, because `this._useUuid` is never assigned and is undefined. -/
theorem removeQueuedEvent_matches_by_id_not_uuid :
    (∀ q ∈ ({ queued := [⟨"create", some { id := some 1, uuid := some "100" }, []⟩] }
        : Engine).queued, (q.record.bind Record.uuid == some "999") = false) ∧
    (removeQueuedEvent
        { queued := [⟨"create", some { id := some 1, uuid := some "100" }, []⟩] }
        "create" { id := some 1, uuid := some "999" } none).queued
      ≠ ({ queued := [⟨"create", some { id := some 1, uuid := some "100" }, []⟩] }
        : Engine).queued := by
  decide

/-- C6 amended: `removeQueuedEvent(eventName, record, updatedAt)` removes
exactly the most recent queued entry (greatest index, i.e. the source's
backward scan) whose record has the same server id (`id` when the given
record carries one, else `_id`) — not uuid — as the given record and whose
`eventName` matches; it leaves the queue unchanged when no entry matches,
and it sets `syncedAt` to `updatedAt` exactly when one is supplied. -/
theorem removeQueuedEvent_spec (e : Engine) (eventName : String) (r : Record)
    (updatedAt : Option Timestamp) :
    ((∀ q ∈ e.queued,
        (entryIdMatches q r.id.isSome r && q.eventName == eventName) = false) →
      (removeQueuedEvent e eventName r updatedAt).queued = e.queued) ∧
    (∀ i, (findIndexReversed e.queued
          fun q => entryIdMatches q r.id.isSome r && q.eventName == eventName) = some i →
      ∃ hlt : i < e.queued.length,
        (entryIdMatches (e.queued.get ⟨i, hlt⟩) r.id.isSome r &&
          (e.queued.get ⟨i, hlt⟩).eventName == eventName) = true ∧
        (∀ j (hj : j < e.queued.length), i < j →
          (entryIdMatches (e.queued.get ⟨j, hj⟩) r.id.isSome r &&
            (e.queued.get ⟨j, hj⟩).eventName == eventName) = false) ∧
        (removeQueuedEvent e eventName r updatedAt).queued = e.queued.eraseIdx i) ∧
    ((removeQueuedEvent e eventName r updatedAt).syncedAt =
      match updatedAt with
      | some t => t
      | none => e.syncedAt) := by
  refine ⟨?_, ?_, ?_⟩
  · intro hnone
    have hidx : (findIndexReversed e.queued
        fun q => entryIdMatches q r.id.isSome r && q.eventName == eventName) = none :=
      (findIndexReversed_eq_none_iff _ _).mpr hnone
    cases updatedAt with
    | some t => simp [removeQueuedEvent, hidx]
    | none => simp [removeQueuedEvent, hidx]
  · intro i hidx
    obtain ⟨hlt, hp, hmax⟩ := findIndexReversed_some_spec _ _ _ hidx
    refine ⟨hlt, hp, hmax, ?_⟩
    cases updatedAt with
    | some t => simp [removeQueuedEvent, hidx]
    | none => simp [removeQueuedEvent, hidx]
  · cases updatedAt with
    | some t => exact removeQueuedEvent_syncedAt_some e eventName r t
    | none => exact removeQueuedEvent_syncedAt_none e eventName r

/-- Witness for the amended C6: of two queued entries for server id 1, the
`create` one (index 0) is the most recent `create` match and is removed;
the supplied confirmation stamp 9 lands in `syncedAt`. -/
theorem removeQueuedEvent_spec_witness :
    (removeQueuedEvent
        { queued := [⟨"create", some { id := some 1 }, []⟩,
                     ⟨"update", some { id := some 1 }, []⟩] }
        "create" { id := some 1 } (some 9)).queued
      = [⟨"update", some { id := some 1 }, []⟩] ∧
    (removeQueuedEvent
        { queued := [⟨"create", some { id := some 1 }, []⟩,
                     ⟨"update", some { id := some 1 }, []⟩] }
        "create" { id := some 1 } (some 9)).syncedAt = 9 := by
  have h := removeQueuedEvent_spec
    { queued := [⟨"create", some { id := some 1 }, []⟩,
                 ⟨"update", some { id := some 1 }, []⟩] }
    "create" { id := some 1 } (some 9)
  obtain ⟨hlt, -, -, hq⟩ := h.2.1 0 (by decide)
  exact ⟨by rw [hq]; decide, by rw [h.2.2]⟩

theorem mem_of_mem_eraseOpt {l : List α} {o : Option Nat} {a : α}
    (h : a ∈ (match o with | some i => l.eraseIdx i | none => l)) : a ∈ l := by
  cases o with
  | some i => exact mem_of_mem_eraseIdx h
  | none => exact h

theorem sublist_eraseOpt (l : List α) (o : Option Nat) :
    (match o with | some i => l.eraseIdx i | none => l).Sublist l := by
  cases o with
  | some i => exact List.eraseIdx_sublist l i
  | none => exact List.Sublist.refl l

/-- Shape of the record list produced by `_mutateStore`: remove path and
rejected-publication path keep only the (possibly) spliced-out list; the
append path adds the re-stamped record and sorts when configured. -/
theorem mutateStore_records_shape (e : Engine) (ev : String) (r : Record)
    (src : Nat) (now : Timestamp) :
    (mutateStore e ev r src now).1.records =
      (if ev == "removed" then
        (match findIndex e.records (fun rec => idOf rec r.id.isSome == idOf r r.id.isSome) with
          | some i => e.records.eraseIdx i
          | none => e.records)
      else if pubRejects e r then
        (match findIndex e.records (fun rec => idOf rec r.id.isSome == idOf r r.id.isSome) with
          | some i => e.records.eraseIdx i
          | none => e.records)
      else
        match e.sorter with
        | some c => jsSort c
            ((match findIndex e.records (fun rec => idOf rec r.id.isSome == idOf r r.id.isSome) with
              | some i => e.records.eraseIdx i
              | none => e.records) ++ [{ r with updatedAt := some now }])
        | none =>
            (match findIndex e.records (fun rec => idOf rec r.id.isSome == idOf r r.id.isSome) with
              | some i => e.records.eraseIdx i
              | none => e.records) ++ [{ r with updatedAt := some now }]) := by
  unfold mutateStore
  dsimp only
  repeat' split
  all_goals rfl

theorem mutateStore_ret_leftpub (e : Engine) (ev : String) (r : Record)
    (src : Nat) (now : Timestamp) (hev : (ev == "removed") = false)
    (hpr : pubRejects e r = true) :
    (mutateStore e ev r src now).2.2 = none := by
  unfold mutateStore
  dsimp only
  rw [if_neg (by simp [hev]), if_pos hpr]
  split
  all_goals rfl

theorem mutateStore_events_leftpub (e : Engine) (ev : String) (r : Record)
    (src : Nat) (now : Timestamp) (hev : (ev == "removed") = false)
    (hpr : pubRejects e r = true) :
    (mutateStore e ev r src now).2.1 =
      (if (findIndex e.records fun rec => idOf rec r.id.isSome == idOf r r.id.isSome).isSome then
        [{ source := some src, action := "left-pub", eventName := some ev, record := some r }]
      else []) := by
  unfold mutateStore
  dsimp only
  rw [if_neg (by simp [hev]), if_pos hpr]
  split
  all_goals rfl

theorem removeListeners_publication (e : Engine) :
    (removeListeners e).1.publication = e.publication := by
  unfold removeListeners
  split
  all_goals rfl

/-- C5 counterexample: with the publication `updatedAt == 0` configured and
an empty store (trivially inside the publication), applying a remote
`created` for a record that passes the check re-stamps `updatedAt` to the
current time 1 before appending — the stored record violates the
publication, refuting the claim that `mutateStore` never adds a record
failing the configured predicate. -/
theorem publication_stamp_counterexample :
    (∀ rec ∈ ({ publication := some (fun rec => rec.updatedAt == some 0) } : Engine).records,
        (rec.updatedAt == some 0) = true) ∧
    ¬ (∀ rec ∈ (mutateStore { publication := some (fun rec => rec.updatedAt == some 0) }
          "created" { id := some 1, updatedAt := some 0 } 0 1).1.records,
        (rec.updatedAt == some 0) = true) := by
  decide

/-- C5 amended: when a publication `p` is configured and `p` is insensitive
to the `updatedAt` field (the source re-stamps `updatedAt` after checking
`p`, so sensitivity to the stamp breaks the invariant — see the
counterexample), `mutateStore` preserves "every stored record satisfies
`p`"; for a non-remove event whose record fails `p` nothing is appended
(the result is a sublist of the prior records), no record is returned, and
a `left-pub` event is emitted exactly when the record was previously
present; and `connect` hands `snapshot` only records that pass `p`, so
after `connect` every stored record satisfies `p`. -/
theorem publication_invariant (p : Record → Bool) (e : Engine) (ev : String) (r : Record)
    (src : Nat) (now : Timestamp)
    (hpub : e.publication = some p)
    (hins : ∀ rec t, p { rec with updatedAt := some t } = p rec)
    (hall : ∀ rec ∈ e.records, p rec = true) :
    (∀ rec ∈ (mutateStore e ev r src now).1.records, p rec = true) ∧
    ((ev == "removed") = false → p r = false →
      (mutateStore e ev r src now).2.2 = none ∧
      ((mutateStore e ev r src now).1.records).Sublist e.records ∧
      ((mutateStore e ev r src now).2.1 =
        if (e.records.any fun rec => idOf rec r.id.isSome == idOf r r.id.isSome) then
          [{ source := some src, action := "left-pub", eventName := some ev, record := some r }]
        else [])) ∧
    (∀ fetched svc, ∀ rec ∈ (connect e fetched svc).1.records, p rec = true) := by
  refine ⟨?_, ?_, ?_⟩
  · intro rec hrec
    rw [mutateStore_records_shape] at hrec
    split at hrec
    · exact hall rec (mem_of_mem_eraseOpt hrec)
    · split at hrec
      · exact hall rec (mem_of_mem_eraseOpt hrec)
      · rename_i hpr
        have hp : p r = true := by
          simp [pubRejects, hpub] at hpr
          exact hpr
        have hmem : rec ∈ (match findIndex e.records
              (fun rec => idOf rec r.id.isSome == idOf r r.id.isSome) with
            | some i => e.records.eraseIdx i
            | none => e.records) ++ [{ r with updatedAt := some now }] := by
          split at hrec
          · exact mem_jsSort.mp hrec
          · exact hrec
        rcases List.mem_append.mp hmem with hmem | hmem
        · exact hall rec (mem_of_mem_eraseOpt hmem)
        · have : rec = { r with updatedAt := some now } := by simpa using hmem
          rw [this, hins r now]
          exact hp
  · intro hev hpf
    have hpr : pubRejects e r = true := by simp [pubRejects, hpub, hpf]
    refine ⟨mutateStore_ret_leftpub e ev r src now hev hpr, ?_, ?_⟩
    · rw [mutateStore_records_shape,
        if_neg (by simp [hev]), if_pos hpr]
      exact sublist_eraseOpt _ _
    · rw [mutateStore_events_leftpub e ev r src now hev hpr, findIndex_isSome_iff]
  · intro fetched svc rec hrec
    simp only [connect, addListeners, snapshot] at hrec
    rw [removeListeners_publication, hpub] at hrec
    have hmem : rec ∈ fetched.filter p := by
      split at hrec
      · exact mem_jsSort.mp hrec
      · exact hrec
    exact (List.mem_filter.mp hmem).2

/-- Witness for the amended C5: the publication `order == 1` (insensitive
to `updatedAt`); a remote create that passes it keeps the invariant, and
`connect` filters a fetched set down to the publication. -/
theorem publication_invariant_witness :
    (∀ rec ∈ (mutateStore
        { publication := some (fun rec => rec.order == some 1),
          records := [{ id := some 1, order := some 1 }] }
        "created" { id := some 2, order := some 1 } 0 3).1.records,
      (rec.order == some 1) = true) ∧
    (∀ rec ∈ (connect
        { publication := some (fun rec => rec.order == some 1),
          records := [{ id := some 1, order := some 1 }] }
        [{ id := some 7, order := some 1 }, { id := some 8, order := some 2 }]
        (fun _ => true)).1.records,
      (rec.order == some 1) = true) := by
  have h := publication_invariant (fun rec => rec.order == some 1)
    { publication := some (fun rec => rec.order == some 1),
      records := [{ id := some 1, order := some 1 }] }
    "created" { id := some 2, order := some 1 } 0 3
    rfl (fun rec t => rfl) (by decide)
  exact ⟨h.1, h.2.2 [{ id := some 7, order := some 1 }, { id := some 8, order := some 2 }]
    (fun _ => true)⟩

theorem mutateStore_append_ret (e : Engine) (ev : String) (r : Record)
    (src : Nat) (now : Timestamp) (hev : (ev == "removed") = false)
    (hpr : pubRejects e r = false) :
    (mutateStore e ev r src now).2.2 = some { r with updatedAt := some now } := by
  unfold mutateStore
  dsimp only
  rw [if_neg (by simp [hev]), if_neg (by simp [hpr])]

theorem selectAlways_uuid (params : Params) (r : Record) :
    (selectAlways params r).uuid = r.uuid := by
  unfold selectAlways selectProj
  cases params.select with
  | none => rfl
  | some fs => simp

/-- C7 counterexample: connected engine with a reject-everything publication
configured; `create` of data with no uuid mints one, but the optimistic
apply drops the record (publication) and `_mutateStore` returns undefined,
so `create` resolves with no record at all — in particular no string uuid
— refuting the claim's "the returned record includes a string uuid". -/
theorem create_pub_counterexample :
    ({ id := some 99, order := some 99 } : Record).uuid = none ∧
    (Mutator.create { listening := true, publication := some (fun _ => false) }
        { id := some 99, order := some 99 } {} "u-1" 3).2 = .ok none := by
  exact ⟨rfl, rfl⟩

/-- C7 amended: for non-array data, `create` fails with BadRequest when the
replicator is not connected; fails with BadRequest when a record with
`data.uuid` already exists; and when data carries no uuid a fresh uuid is
minted — provided no configured publication rejects the (minted) record,
the returned record carries that (string) uuid, while a rejecting
publication makes `create` resolve with no record (see the
counterexample). -/
theorem create_spec (e : Engine) (data : Record) (params : Params) (mint : String)
    (now : Timestamp) :
    (e.listening = false →
      Mutator.create e data params mint now =
        (e, .error (.badRequest Mutator.connectedMsg))) ∧
    (e.listening = true → ∀ u, data.uuid = some u →
      (e.records.any fun rec => rec.uuid == some u) = true →
      Mutator.create e data params mint now =
        (e, .error (.badRequest "Optimistic create requires unique uuid. (owndata)"))) ∧
    (e.listening = true → data.uuid = none →
      (∀ rec ∈ e.records, (rec.uuid == some mint) = false) →
      pubRejects e { data with uuid := some mint } = false →
      ∃ ret, (Mutator.create e data params mint now).2 = .ok (some ret) ∧
        ret.uuid = some mint) := by
  refine ⟨?_, ?_, ?_⟩
  · intro h
    simp [Mutator.create, h]
  · intro hconn u hu hex
    have hsome : (findIndex e.records fun rec => rec.uuid == some u).isSome = true := by
      rw [findIndex_isSome_iff]
      exact hex
    obtain ⟨i, hi⟩ := Option.isSome_iff_exists.mp hsome
    simp [Mutator.create, hconn, hu, findUuidIndex, hi]
  · intro hconn hnone hnomint hpr
    have hfu : findUuidIndex e.records (some mint) = none := by
      unfold findUuidIndex
      exact (findIndex_eq_none_iff _ _).mpr hnomint
    have hret := mutateStore_append_ret e "created" { data with uuid := some mint } 1 now
      rfl hpr
    refine ⟨selectAlways params { data with uuid := some mint, updatedAt := some now }, ?_, ?_⟩
    · simp only [Mutator.create, hconn, hnone, Bool.not_true, Bool.false_eq_true, if_false,
        hfu]
      rw [hret]
      rfl
    · rw [selectAlways_uuid]

/-- Witness for the amended C7: a disconnected create fails with
BadRequest; a connected create of uuid-less data returns a record carrying
the minted string uuid. -/
theorem create_spec_witness :
    (Mutator.create ({} : Engine) { id := some 9 } {} "u-2" 3 =
      (({} : Engine), .error (.badRequest Mutator.connectedMsg))) ∧
    (∃ ret, (Mutator.create { listening := true } { id := some 9 } {} "u-2" 3).2 =
      .ok (some ret) ∧ ret.uuid = some "u-2") := by
  exact ⟨(create_spec {} { id := some 9 } {} "u-2" 3).1 rfl,
    (create_spec { listening := true } { id := some 9 } {} "u-2" 3).2.2 rfl rfl
      (by simp) (by decide)⟩

/-- C8 counterexample: `remove(9999)` on a disconnected replicator (and an
id matching no record) fails with BadRequest, not NotFound: the
connectivity check precedes the lookup. -/
theorem remove_disconnected_badRequest :
    (Mutator.remove ({} : Engine) 9999 {} 5).2 =
      .error (.badRequest Mutator.connectedMsg) ∧
    (∀ m, (Mutator.remove ({} : Engine) 9999 {} 5).2 ≠ .error (.notFound m)) := by
  refine ⟨rfl, ?_⟩
  intro m h
  rw [show (Mutator.remove ({} : Engine) 9999 {} 5).2 =
      .error (.badRequest Mutator.connectedMsg) from rfl] at h
  simp at h

/-- C8 amended: with the replicator connected (and, for update, data
carrying a uuid), an identifier matching no stored record makes `get`,
`update`, `patch` and `remove` fail with NotFound, and the engine state —
in particular `records` and `queued` — is returned unchanged.  When
disconnected the three mutating calls fail with BadRequest instead (see
the counterexample). -/
theorem notFound_spec (e : Engine) (u : String) (i : Nat) (data : Record) (params : Params)
    (now : Timestamp)
    (hconn : e.listening = true)
    (hdu : data.uuid.isSome = true)
    (hu : ∀ rec ∈ e.records, (rec.uuid == some u) = false)
    (hi : ∀ rec ∈ e.records, (rec.id == some i || rec._id == some i) = false) :
    Mutator.get e u params = (e, .error (.notFound "No record found for uuid")) ∧
    Mutator.update e i data params now = (e, .error (.notFound "No record found for id")) ∧
    Mutator.patch e i data params now = (e, .error (.notFound "No record found for id")) ∧
    Mutator.remove e i params now = (e, .error (.notFound "No record found for id")) := by
  have hfu : findUuidIndex e.records (some u) = none := by
    unfold findUuidIndex
    exact (findIndex_eq_none_iff _ _).mpr hu
  have hfi : findIdIndex e.records i = none := by
    unfold findIdIndex
    exact (findIndex_eq_none_iff _ _).mpr hi
  obtain ⟨du, hdu'⟩ := Option.isSome_iff_exists.mp hdu
  refine ⟨?_, ?_, ?_, ?_⟩
  · simp [Mutator.get, hfu]
  · simp [Mutator.update, hconn, hdu', hfi]
  · simp [Mutator.patch, hconn, hfi]
  · simp [Mutator.remove, hconn, hfi]

/-- Witness for the amended C8 on a connected engine with an empty store. -/
theorem notFound_spec_witness :
    Mutator.get { listening := true } "nope" {} =
      (({ listening := true } : Engine), .error (.notFound "No record found for uuid")) ∧
    Mutator.remove { listening := true } 9999 {} 5 =
      (({ listening := true } : Engine), .error (.notFound "No record found for id")) := by
  have h := notFound_spec { listening := true } "nope" 9999 { uuid := some "x" } {} 5
    rfl rfl (by simp) (by simp)
  exact ⟨h.1, h.2.2.2⟩

end Owndata
